import Mathlib

/-!
Verification development for the speclite redshift-transform engine
(`speclite/redshift.py`).

The embedding models numpy arrays shallowly:

* an array is a shape (list of dimension sizes) together with a value
  function on multi-indices and a per-element finiteness flag;
* float64 arithmetic is idealized as exact rational arithmetic, but the
  two dtype conversions that the source performs exactly and
  deterministically are modelled: the implicit int64 to float64
  conversion that numpy applies before multiplying an integer array by a
  float (round to nearest, ties to even, at 53 significant bits), and
  the float64 to int64 cast performed by the final slice assignment
  (truncation toward zero);
* numpy broadcasting of shapes is modelled exactly (right-aligned,
  dimensions compatible when equal or one of them is 1);
* `raise ValueError` is modelled with `Except`; the source performs each
  raise before its single output-buffer write, so an `error` result
  corresponds to an unmodified output buffer.

Object identity (`data_out[name].base is data_in[name]`) is not
expressible in a value model, so the aliasing test of
`apply_redshift_transform` is an oracle parameter `isAlias`.
-/

/-- Element type of an array.  `float64` and `int64` are numeric
(`np.issubdtype(dtype, np.number)` holds); `strD` stands for any
non-numeric dtype. -/
inductive DType where
  | float64
  | int64
  | strD
deriving DecidableEq

/-- Whether a dtype satisfies `np.issubdtype(dtype, np.number)`. -/
def DType.isNumeric : DType → Bool
  | .float64 => true
  | .int64 => true
  | .strD => false

/-- A redshift argument (`z_in` / `z_out`): shape plus real-valued
elements.  Scalars have shape `[]`. -/
structure ZArr where
  shape : List Nat
  val : List Nat → ℚ

/-- A quantity array (`y_in` / `y_out` / a data column): shape, dtype,
element values, and a flag marking which elements are finite
(an element with `finite = false` models NaN or an infinity; its `val`
is irrelevant). -/
structure YArr where
  shape : List Nat
  dtype : DType
  val : List Nat → ℚ
  finite : List Nat → Bool

/-- The `ValueError`s raised by `speclite/redshift.py`, tagged following
the spec's error taxonomy.  `invalidRedshift` and `conflictingZ` carry
the raised message. -/
inductive RErr where
  | invalidRedshift (msg : String)
  | nonNumeric (name : String)
  | nonFinite (name : String)
  | broadcastErr (name : String) (s1 s2 s3 : List Nat)
  | wrongShape (s : List Nat) (name : String)
  | wrongDtype (d : DType) (name : String)
  | conflictingZ (msg : String)
  | missingColumn (name : String)
deriving DecidableEq

/-- All valid multi-indices of a shape, in row-major order. -/
def indexList : List Nat → List (List Nat)
  | [] => [[]]
  | d :: rest => (List.range d).flatMap fun i => (indexList rest).map (i :: ·)

/-- Broadcast two dimension sizes (numpy rule: equal, or one is 1). -/
def bdim (a b : Nat) : Option Nat :=
  if a = b then some a else if a = 1 then some b else if b = 1 then some a else none

/-- Broadcast two shapes given with their dimensions reversed
(innermost first), so that alignment is from the right. -/
def bshapeRev : List Nat → List Nat → Option (List Nat)
  | [], t => some t
  | s, [] => some s
  | a :: s, b :: t => do
      let d ← bdim a b
      let r ← bshapeRev s t
      pure (d :: r)

/-- Broadcast two shapes (numpy's right-aligned rule). -/
def bshape2 (s t : List Nat) : Option (List Nat) :=
  (bshapeRev s.reverse t.reverse).map List.reverse

/-- Broadcast three shapes, as `np.broadcast(z_in, z_out, y_in).shape`. -/
def bshape3 (s t u : List Nat) : Option (List Nat) := do
  let a ← bshape2 s t
  bshape2 a u

/-- Project a multi-index of the broadcast result shape onto an operand
of shape `s`: drop the extra leading axes and send every axis of size 1
to index 0. -/
def bproj (s idx : List Nat) : List Nat :=
  (List.zip (idx.drop (idx.length - s.length)) s).map fun p => if p.2 = 1 then 0 else p.1

/-- Number of halvings needed to bring `m` strictly below `2 ^ 53`;
this is the binary exponent of the float64 rounding grid containing
`m`.  Fuel-driven so that it reduces definitionally; 64 units of fuel
cover the whole int64 range. -/
def ulpExp : Nat → Nat → Nat
  | 0, _ => 0
  | fuel + 1, m => if m < 2 ^ 53 then 0 else ulpExp fuel (m / 2) + 1

/-- Round an integer to the nearest float64 (round to nearest, ties to
even, 53-bit significand).  Models numpy's implicit int64 to float64
conversion; exact below `2 ^ 53`. -/
def roundF64Int (n : ℤ) : ℤ :=
  let m := n.natAbs
  let e := ulpExp 64 m
  if e = 0 then n
  else
    let u := 2 ^ e
    let q := m / u
    let r := m % u
    let half := u / 2
    let q2 := if r < half then q else if half < r then q + 1
      else if q % 2 = 0 then q else q + 1
    (if n < 0 then -1 else 1) * (q2 * u : Nat)

/-- Round a rational holding an integer value to float64; non-integer
rationals only arise from already-idealized float values and are kept
exact. -/
def roundF64 (q : ℚ) : ℚ := if q.den = 1 then (roundF64Int q.num : ℚ) else q

/-- Conversion applied to an element of a `d`-typed array when it
enters a float computation: int64 elements are converted to float64. -/
def toF64 (d : DType) (q : ℚ) : ℚ :=
  match d with
  | .int64 => roundF64 q
  | _ => q

/-- Truncation toward zero, as the C cast from float64 to int64. -/
def truncQ (q : ℚ) : ℤ := if 0 ≤ q then ⌊q⌋ else -⌊-q⌋

/-- Cast of a computed float64 value on assignment into a buffer of
dtype `d` (`y_out[:] = ...`): int64 buffers truncate toward zero. -/
def castTo (d : DType) (q : ℚ) : ℚ :=
  match d with
  | .int64 => (truncQ q : ℚ)
  | _ => q

/-- The module-level `exponents` dictionary of `speclite/redshift.py`,
in source order. -/
def exponents : List (String × ℤ) :=
  [("wlen", 1), ("wavelength", 1), ("wavelength_error", 1),
   ("freq", -1), ("frequency", -1), ("frequency_error", -1),
   ("flux", -1), ("irradiance_per_wavelength", -1),
   ("irradiance_per_frequency", 1),
   ("ivar", 2), ("ivar_irradiance_per_wavelength", 2),
   ("ivar_irradiance_per_frequency", -2)]

/-- Registry lookup: `exponents[name]` when `name in exponents`, else
absent. -/
def exponent_for (name : String) : Option ℤ :=
  (exponents.find? fun p => p.1 == name).map (·.2)

/-- Exponent resolution of `redshift_array`: an explicitly supplied
exponent wins; otherwise the registry entry for `name`; otherwise 0. -/
def resolveExp (exponent : Option ℤ) (name : String) : ℤ :=
  match exponent with
  | some e => e
  | none =>
    match exponent_for name with
    | some e => e
    | none => 0

/-- `np.any(z <= -1)`. -/
def anyLeNegOne (z : ZArr) : Bool :=
  (indexList z.shape).any fun i => decide (z.val i ≤ -1)

/-- `np.all(np.isfinite(y))`. -/
def allFinite (y : YArr) : Bool :=
  (indexList y.shape).all fun i => y.finite i

/-- Elementwise value written by
`y_out[:] = y_in * ((1. + z_out) / (1. + z_in)) ** exponent`, at a
multi-index of the broadcast result shape.  The int64 to float64
conversion of `y_in` and the cast back to `y_in`'s dtype on assignment
are included. -/
def rhsValFn (z_in z_out : ZArr) (y_in : YArr) (e : ℤ) : List Nat → ℚ :=
  fun i =>
    castTo y_in.dtype
      (toF64 y_in.dtype (y_in.val (bproj y_in.shape i)) *
        ((1 + z_out.val (bproj z_out.shape i)) /
          (1 + z_in.val (bproj z_in.shape i))) ^ e)

/-- Embedding of `redshift_array(z_in, z_out, y_in, y_out, exponent,
name)`, following the source's statement order: validate `z_in`, then
`z_out`, then `y_in`'s dtype and finiteness, resolve the exponent,
compute the broadcast shape, validate or allocate `y_out`, and finally
perform the single slice-assignment write. -/
def redshift_array (z_in z_out : ZArr) (y_in : YArr) (y_out : Option YArr)
    (exponent : Option ℤ) (name : String) : Except RErr YArr :=
  if anyLeNegOne z_in then .error (.invalidRedshift "Found invalid z_in") else
  if anyLeNegOne z_out then .error (.invalidRedshift "Found invalid z_out") else
  if y_in.dtype.isNumeric = false then .error (.nonNumeric name) else
  if allFinite y_in = false then .error (.nonFinite name) else
  let e := resolveExp exponent name
  match bshape3 z_in.shape z_out.shape y_in.shape with
  | none => .error (.broadcastErr name z_in.shape z_out.shape y_in.shape)
  | some shape_out =>
    match y_out with
    | none => .ok ⟨shape_out, y_in.dtype, rhsValFn z_in z_out y_in e, fun _ => true⟩
    | some yo =>
      if yo.shape ≠ shape_out then .error (.wrongShape yo.shape name) else
      if yo.dtype ≠ y_in.dtype then .error (.wrongDtype yo.dtype name) else
      .ok ⟨shape_out, yo.dtype, rhsValFn z_in z_out y_in e, fun _ => true⟩

/-- Final contents of a caller-supplied output buffer after a
`redshift_array` call: the source's only mutation of `y_out` is the
final slice assignment, which every `raise` precedes, so on an error
the buffer keeps its original contents. -/
def finalBuffer (res : Except RErr YArr) (orig : YArr) : YArr :=
  match res with
  | .ok r => r
  | .error _ => orig

/-- First component of an `Except` result when it is an error. -/
def errOf {α : Type} : Except RErr α → Option RErr
  | .error e => some e
  | .ok _ => none

/-- Whether an `Except` result is a success. -/
def isOkE {α : Type} : Except RErr α → Bool
  | .error _ => false
  | .ok _ => true

/-- Element value of a successful `redshift_array` result (0 on an
error, never consulted there). -/
def okVal (res : Except RErr YArr) (i : List Nat) : ℚ :=
  match res with
  | .ok r => r.val i
  | .error _ => 0

/-- Shape of a successful `redshift_array` result. -/
def okShape (res : Except RErr YArr) : Option (List Nat) :=
  match res with
  | .ok r => some r.shape
  | .error _ => none

/-- Column list of a successful dict-valued result ([] on an error). -/
def okCols (res : Except RErr (List (String × YArr))) : List (String × YArr) :=
  match res with
  | .ok l => l
  | .error _ => []

/-- Dictionary lookup, `d[name]` / `name in d`, on an ordered mapping
represented as an association list with unique keys. -/
def lookupCol (l : List (String × YArr)) (name : String) : Option YArr :=
  (l.find? fun p => p.1 == name).map (·.2)

/-- `exponent.get(name, 0)`. -/
def lookupExp (l : List (String × ℤ)) (name : String) : ℤ :=
  ((l.find? fun p => p.1 == name).map (·.2)).getD 0

/-- Ordered-dict assignment `d[name] = v`: replace the first entry with
that key, or append a new entry when the key is absent. -/
def updateCol : List (String × YArr) → String → YArr → List (String × YArr)
  | [], name, v => [(name, v)]
  | (m, w) :: t, name, v =>
    if m == name then (name, v) :: t else (m, w) :: updateCol t name v

/-- One iteration of the `apply_redshift_transform` loop for the entry
`name` of `data_out` whose buffer is `yo`.  `isAlias` stands for the
object-identity test `data_out[name].base is data_in[name]`, which a
value model cannot compute.  With a non-zero exponent the buffer is
overwritten with `data_in[name] * zfactor ** exponent[name]`; with a
zero exponent `data_in[name]` is copied in unless the alias test
holds, in which case the buffer is left as it is.  Modelled on the
domain where the numpy assignments broadcast (shape errors of the
assignment itself are not represented). -/
def transformCol (z_in z_out : ZArr) (data_in : List (String × YArr))
    (name : String) (yo : YArr) (exponent : List (String × ℤ))
    (isAlias : Bool) : YArr :=
  let yi := (lookupCol data_in name).getD yo
  let n := lookupExp exponent name
  if n ≠ 0 then
    ⟨yo.shape, yo.dtype,
      fun i =>
        castTo yo.dtype
          (toF64 yi.dtype (yi.val (bproj yi.shape i)) *
            ((1 + z_out.val (bproj z_out.shape i)) /
              (1 + z_in.val (bproj z_in.shape i))) ^ n),
      fun _ => true⟩
  else if isAlias then yo
  else
    ⟨yo.shape, yo.dtype,
      fun i => castTo yo.dtype (yi.val (bproj yi.shape i)),
      fun i => yi.finite (bproj yi.shape i)⟩

/-- Embedding of `apply_redshift_transform(z_in, z_out, data_in,
data_out, exponent)`: both redshift bounds are validated up front,
before the loop that fills `data_out`; on success every entry of
`data_out` is rewritten by `transformCol` in order. -/
def apply_redshift_transform (z_in z_out : ZArr)
    (data_in data_out : List (String × YArr)) (exponent : List (String × ℤ))
    (isAlias : String → Bool) : Except RErr (List (String × YArr)) :=
  if anyLeNegOne z_in then .error (.invalidRedshift "Found invalid z_in") else
  if anyLeNegOne z_out then .error (.invalidRedshift "Found invalid z_out") else
  .ok (data_out.map fun p =>
    (p.1, transformCol z_in z_out data_in p.1 p.2 exponent (isAlias p.1)))

/-- Final contents of the `data_out` buffers after
`apply_redshift_transform`: the redshift validation precedes every
write, so on an error the mapping is untouched. -/
def applyFinalData (res : Except RErr (List (String × YArr)))
    (orig : List (String × YArr)) : List (String × YArr) :=
  match res with
  | .ok r => r
  | .error _ => orig

/-- A scalar redshift of value `q` (shape `[]`). -/
def scalarZ (q : ℚ) : ZArr := ⟨[], fun _ => q⟩

/-- Resolution of the `z` / `z_in` / `z_out` options of `redshift`
(Step 1 of the orchestrator): `z` alone resolves to `z_in = 0`,
`z_out = z`; otherwise both `z_in` and `z_out` must be supplied. -/
def resolve_z (z z_in z_out : Option ZArr) : Except RErr (ZArr × ZArr) :=
  match z with
  | some zv =>
    if z_in.isSome || z_out.isSome then
      .error (.conflictingZ "Cannot combine z parameter with z_in, z_out")
    else .ok (scalarZ 0, zv)
  | none =>
    match z_in, z_out with
    | some a, some b => .ok (a, b)
    | _, _ => .error (.conflictingZ "Must both z_in and z_out")

/-- The per-column loop of `redshift`.  `hasOut` records whether a
`data_out` option was supplied; when it was, a column name absent from
`arrays_out` raises just before that column's transform, and the
transform writes into the existing buffer.  The second component of the
result is the state of the output mapping when the loop stops, also on
an error (the buffers already written stay written). -/
def redshift_cols (z_in z_out : ZArr) (hasOut : Bool) :
    List (String × YArr) → List (String × YArr) →
    Except RErr (List (String × YArr)) × List (String × YArr)
  | [], outs => (.ok outs, outs)
  | (name, y) :: rest, outs =>
    if hasOut then
      match lookupCol outs name with
      | none => (.error (.missingColumn name), outs)
      | some yo =>
        match redshift_array z_in z_out y (some yo) none name with
        | .error e => (.error e, outs)
        | .ok r => redshift_cols z_in z_out hasOut rest (updateCol outs name r)
    else
      match redshift_array z_in z_out y none none name with
      | .error e => (.error e, outs)
      | .ok r => redshift_cols z_in z_out hasOut rest (updateCol outs name r)

/-- Observable outcome of a `redshift` call: the returned value or
raised error, the final contents of the supplied `data_out` buffers,
and what was written to standard output. -/
structure RunOut where
  res : Except RErr (List (String × YArr))
  buf : List (String × YArr)
  stdout : List String

/-- Embedding of `redshift(*args, **kwargs)`.

Modelled from the spec: `speclite.utility.get_options`,
`prepare_data` and `tabular_like` are not part of the repository
source.  Following the spec's collaborator contracts, option parsing
is modelled by the explicit `z`, `z_in`, `z_out`, `data_out`
parameters, `prepare_data('read_only', ...)` by taking the ordered
input mapping `columns` directly, `prepare_data('in_place', ...)` by
taking the ordered mapping of `data_out`'s column buffers, and
`tabular_like` by returning the assembled mapping itself.

The body mirrors `redshift.py`: resolve the redshift options, run the
per-column loop, reassemble, then execute the three `print`
statements (recorded on `stdout`) before returning. -/
def redshift (columns : List (String × YArr)) (z z_in z_out : Option ZArr)
    (data_out : Option (List (String × YArr))) : RunOut :=
  match resolve_z z z_in z_out with
  | .error e => ⟨.error e, data_out.getD [], []⟩
  | .ok (zi, zo) =>
    let outs0 := data_out.getD []
    let step := redshift_cols zi zo data_out.isSome columns outs0
    match step.1 with
    | .error e => ⟨.error e, step.2, []⟩
    | .ok outs => ⟨.ok outs, step.2, ["arrays_out", "data_in", "data_out"]⟩

/-- Concrete arrays used to instantiate the theorems below. -/
def yTwoF : YArr := ⟨[2], .float64, fun i => if i = [0] then 3 else 4, fun _ => true⟩

def yInt3 : YArr := ⟨[1], .int64, fun _ => 3, fun _ => true⟩

def yBigInt : YArr := ⟨[1], .int64, fun _ => 9007199254740993, fun _ => true⟩

def zBad : ZArr := ⟨[1], fun _ => -2⟩

def yView1 : YArr := ⟨[2], .float64, fun i => if i = [0] then 5 else 7, fun _ => true⟩

def yView2 : YArr := ⟨[2], .float64, fun i => if i = [0] then 7 else 5, fun _ => true⟩

def yZeros2 : YArr := ⟨[2], .float64, fun _ => 0, fun _ => true⟩

def yW1 : YArr := ⟨[1], .float64, fun _ => 3, fun _ => true⟩

def yZeros1 : YArr := ⟨[1], .float64, fun _ => 0, fun _ => true⟩

lemma length_of_mem_indexList :
    ∀ {s : List Nat} {i : List Nat}, i ∈ indexList s → i.length = s.length := by
  intro s
  induction s with
  | nil => intro i hi; simp [indexList] at hi; simp [hi]
  | cons d rest ih =>
    intro i hi
    simp only [indexList, List.mem_flatMap, List.mem_map, List.mem_range] at hi
    obtain ⟨a, _, j, hj, rfl⟩ := hi
    simp [ih hj]

lemma bproj_of_mem_indexList :
    ∀ {s : List Nat} {i : List Nat}, i ∈ indexList s → bproj s i = i := by
  intro s
  induction s with
  | nil => intro i hi; simp [indexList] at hi; simp [hi, bproj]
  | cons d rest ih =>
    intro i hi
    simp only [indexList, List.mem_flatMap, List.mem_map, List.mem_range] at hi
    obtain ⟨a, ha, j, hj, rfl⟩ := hi
    have hlen : j.length = rest.length := length_of_mem_indexList hj
    have htail := ih hj
    simp only [bproj, hlen, List.length_cons, Nat.sub_self, List.drop_zero,
      List.zip_cons_cons, List.map_cons] at htail ⊢
    rw [htail]
    by_cases hd : d = 1
    · subst hd; simp [Nat.lt_one_iff.mp ha]
    · simp [hd]

lemma anyLeNegOne_eq_false_iff (z : ZArr) :
    anyLeNegOne z = false ↔ ∀ i ∈ indexList z.shape, -1 < z.val i := by
  simp [anyLeNegOne, List.any_eq_false, not_le]

lemma allFinite_eq_true_iff (y : YArr) :
    allFinite y = true ↔ ∀ i ∈ indexList y.shape, y.finite i = true := by
  simp [allFinite, List.all_eq_true]

lemma redshift_array_ok_eval (z_in z_out : ZArr) (y : YArr) (yo? : Option YArr)
    (expo : Option ℤ) (nm : String) (s : List Nat)
    (h1 : anyLeNegOne z_in = false) (h2 : anyLeNegOne z_out = false)
    (h3 : y.dtype.isNumeric = true) (h4 : allFinite y = true)
    (h5 : bshape3 z_in.shape z_out.shape y.shape = some s)
    (h6 : ∀ yo, yo? = some yo → yo.shape = s ∧ yo.dtype = y.dtype) :
    redshift_array z_in z_out y yo? expo nm =
      .ok ⟨s, y.dtype, rhsValFn z_in z_out y (resolveExp expo nm), fun _ => true⟩ := by
  cases yo? with
  | none =>
    unfold redshift_array
    rw [h1, h2, h3, h4, h5]
    simp
  | some yo =>
    obtain ⟨hsh, hdt⟩ := h6 yo rfl
    unfold redshift_array
    rw [h1, h2, h3, h4, h5]
    simp [hsh, hdt]

example : bshape3 [] [] [3] = some [3] := by decide
example : bshape3 [2, 1] [] [3] = some [2, 3] := by decide
example : bshape2 [2] [3] = none := by decide
example : roundF64Int 9007199254740993 = 9007199254740992 := by decide
example : roundF64Int 12345 = 12345 := by decide
example : truncQ (3 / 2 : ℚ) = 1 := by norm_num [truncQ]
example : truncQ (-3 / 2 : ℚ) = -1 := by norm_num [truncQ]
example : exponent_for "wlen" = some 1 := by decide
example : exponent_for "spam" = none := by decide

lemma exponent_for_eq_none_of_not_mem {n : String}
    (hn : n ∉ exponents.map Prod.fst) : exponent_for n = none := by
  have hfind : exponents.find? (fun p => p.1 == n) = none := by
    rw [List.find?_eq_none]
    rintro ⟨a, b⟩ hmem hbeq
    exact hn (List.mem_map.mpr ⟨(a, b), hmem, by simpa using hbeq⟩)
  simp [exponent_for, hfind]

/-- C2 (amended): the Exponent Registry defines exactly 12 predefined
quantity names (not 11): the three wavelength-like names map to +1, the
three frequency-like names to -1, flux and irradiance-per-wavelength to
-1, irradiance-per-frequency to +1, the two inverse-variance names for
wavelength-like or irradiance-per-wavelength quantities to +2, and the
inverse-variance of irradiance-per-frequency to -2; lookup of any name
outside these 12 reports absent, and the caller default then resolves
the exponent to 0. -/
theorem claimC2_registry (n : String) (hn : n ∉ exponents.map Prod.fst) :
    exponents.length = 12 ∧
    exponent_for "wlen" = some 1 ∧
    exponent_for "wavelength" = some 1 ∧
    exponent_for "wavelength_error" = some 1 ∧
    exponent_for "freq" = some (-1) ∧
    exponent_for "frequency" = some (-1) ∧
    exponent_for "frequency_error" = some (-1) ∧
    exponent_for "flux" = some (-1) ∧
    exponent_for "irradiance_per_wavelength" = some (-1) ∧
    exponent_for "irradiance_per_frequency" = some 1 ∧
    exponent_for "ivar" = some 2 ∧
    exponent_for "ivar_irradiance_per_wavelength" = some 2 ∧
    exponent_for "ivar_irradiance_per_frequency" = some (-2) ∧
    exponent_for n = none ∧ resolveExp none n = 0 := by
  have habsent := exponent_for_eq_none_of_not_mem hn
  refine ⟨by decide, by decide, by decide, by decide, by decide, by decide,
    by decide, by decide, by decide, by decide, by decide, by decide, by decide,
    habsent, ?_⟩
  simp [resolveExp, habsent]

/-- C2 witness: the registry facts instantiated at the undeclared name
"spam". -/
theorem claimC2_registry_witness :
    "spam" ∉ exponents.map Prod.fst ∧
    (exponents.length = 12 ∧
      exponent_for "wlen" = some 1 ∧
      exponent_for "wavelength" = some 1 ∧
      exponent_for "wavelength_error" = some 1 ∧
      exponent_for "freq" = some (-1) ∧
      exponent_for "frequency" = some (-1) ∧
      exponent_for "frequency_error" = some (-1) ∧
      exponent_for "flux" = some (-1) ∧
      exponent_for "irradiance_per_wavelength" = some (-1) ∧
      exponent_for "irradiance_per_frequency" = some 1 ∧
      exponent_for "ivar" = some 2 ∧
      exponent_for "ivar_irradiance_per_wavelength" = some 2 ∧
      exponent_for "ivar_irradiance_per_frequency" = some (-2) ∧
      exponent_for "spam" = none ∧ resolveExp none "spam" = 0) :=
  ⟨by decide, claimC2_registry "spam" (by decide)⟩

/-- C2 counterexample: the claim says the registry defines exactly 11
names, but the `exponents` dictionary of the source has 12 entries. -/
theorem claimC2_count_cex :
    exponents.length = 12 ∧ ¬ exponents.length = 11 := by decide

lemma redshift_array_not_conflict (z_in z_out : ZArr) (y : YArr)
    (yo? : Option YArr) (expo : Option ℤ) (nm : String) (m : String) :
    redshift_array z_in z_out y yo? expo nm ≠ .error (.conflictingZ m) := by
  unfold redshift_array
  intro h
  repeat' split at h
  all_goals simp_all

lemma redshift_cols_not_conflict (zi zo : ZArr) (hOut : Bool) :
    ∀ (cols outs : List (String × YArr)) (m : String),
      (redshift_cols zi zo hOut cols outs).1 ≠ .error (.conflictingZ m) := by
  intro cols
  induction cols with
  | nil => intro outs m; simp [redshift_cols]
  | cons p rest ih =>
    intro outs m
    obtain ⟨name, y⟩ := p
    simp only [redshift_cols]
    intro h
    split at h
    · split at h
      · simp at h
      · split at h
        · rename_i heq
          injection h with h2
          exact redshift_array_not_conflict zi zo y _ none name m (h2 ▸ heq)
        · exact ih _ m h
    · split at h
      · rename_i heq
        injection h with h2
        exact redshift_array_not_conflict zi zo y none none name m (h2 ▸ heq)
      · exact ih _ m h

lemma errOf_eq_some {α : Type} (x : Except RErr α) (e : RErr) :
    errOf x = some e ↔ x = .error e := by
  cases x <;> simp [errOf]

lemma redshift_res_of_resolve_ok (columns : List (String × YArr))
    (z z_in z_out : Option ZArr) (douts : Option (List (String × YArr)))
    (zi zo : ZArr) (h : resolve_z z z_in z_out = .ok (zi, zo)) :
    (redshift columns z z_in z_out douts).res =
      (redshift_cols zi zo douts.isSome columns (douts.getD [])).1 := by
  unfold redshift
  rw [h]
  cases hstep : (redshift_cols zi zo douts.isSome columns (douts.getD [])).1 with
  | error e => simp [hstep]
  | ok outs => simp [hstep]

/-- C4: `redshift` fails with a `ConflictingRedshiftSpec` error exactly
when the `z` / `z_in` / `z_out` option combination is invalid: `z`
together with `z_in` or `z_out` fails, `z` absent with either of
`z_in`, `z_out` absent fails; `z` alone resolves to `z_in = 0`,
`z_out = z`, and `z_in` with `z_out` (without `z`) are used as
supplied. -/
theorem claimC4_z_option_resolution (columns : List (String × YArr))
    (z z_in z_out : Option ZArr) (data_out : Option (List (String × YArr))) :
    ((∃ m, errOf (redshift columns z z_in z_out data_out).res =
        some (.conflictingZ m)) ↔
      ((z.isSome ∧ (z_in.isSome ∨ z_out.isSome)) ∨
        (z = none ∧ (z_in = none ∨ z_out = none)))) ∧
    (∀ zv, z = some zv → z_in = none → z_out = none →
      resolve_z z z_in z_out = .ok (scalarZ 0, zv)) ∧
    (∀ a b, z = none → z_in = some a → z_out = some b →
      resolve_z z z_in z_out = .ok (a, b)) := by
  refine ⟨?_, ?_, ?_⟩
  · cases z with
    | some zv =>
      cases z_in with
      | some a => simp [redshift, resolve_z, errOf]
      | none =>
        cases z_out with
        | some b => simp [redshift, resolve_z, errOf]
        | none =>
          have hres := redshift_res_of_resolve_ok columns (some zv) none none
            data_out (scalarZ 0) zv (by simp [resolve_z])
          rw [hres]
          simp only [Option.isSome_none, Option.isSome_some]
          constructor
          · rintro ⟨m, hm⟩
            exact absurd ((errOf_eq_some _ _).mp hm)
              (redshift_cols_not_conflict _ _ _ _ _ m)
          · rintro (⟨_, h2 | h2⟩ | ⟨h1, _⟩) <;> simp_all
    | none =>
      cases z_in with
      | none => simp [redshift, resolve_z, errOf]
      | some a =>
        cases z_out with
        | none => simp [redshift, resolve_z, errOf]
        | some b =>
          have hres := redshift_res_of_resolve_ok columns none (some a) (some b)
            data_out a b (by simp [resolve_z])
          rw [hres]
          simp only [Option.isSome_none, Option.isSome_some]
          constructor
          · rintro ⟨m, hm⟩
            exact absurd ((errOf_eq_some _ _).mp hm)
              (redshift_cols_not_conflict _ _ _ _ _ m)
          · rintro (⟨h1, _⟩ | ⟨_, h2 | h2⟩) <;> simp_all
  · intro zv hz hzi hzo
    subst hz; subst hzi; subst hzo
    simp [resolve_z]
  · intro a b hz hzi hzo
    subst hz; subst hzi; subst hzo
    simp [resolve_z]

/-- C4 witness: with `z` and `z_in` both set the call fails with the
conflicting-options error, and `z` alone resolves to
`z_in = 0, z_out = z`. -/
theorem claimC4_z_option_resolution_witness :
    (∃ m, errOf (redshift [] (some (scalarZ 1)) (some (scalarZ 1)) none none).res =
      some (.conflictingZ m)) ∧
    resolve_z (some (scalarZ 1)) none none = .ok (scalarZ 0, scalarZ 1) :=
  ⟨(claimC4_z_option_resolution [] (some (scalarZ 1)) (some (scalarZ 1)) none none).1.mpr
      (Or.inl ⟨by simp, Or.inl (by simp)⟩),
    (claimC4_z_option_resolution [] (some (scalarZ 1)) none none none).2.1
      (scalarZ 1) rfl rfl rfl⟩

lemma anyLeNegOne_eq_true_iff (z : ZArr) :
    anyLeNegOne z = true ↔ ∃ i ∈ indexList z.shape, z.val i ≤ -1 := by
  simp [anyLeNegOne, List.any_eq_true]

lemma redshift_array_not_invalid (z_in z_out : ZArr) (y : YArr)
    (yo? : Option YArr) (expo : Option ℤ) (nm : String) (m : String)
    (h1 : anyLeNegOne z_in = false) (h2 : anyLeNegOne z_out = false) :
    redshift_array z_in z_out y yo? expo nm ≠ .error (.invalidRedshift m) := by
  unfold redshift_array
  rw [h1, h2]
  intro h
  repeat' split at h
  all_goals simp_all

lemma redshift_array_zin_err (z_in z_out : ZArr) (y : YArr) (yo? : Option YArr)
    (expo : Option ℤ) (nm : String) (h1 : anyLeNegOne z_in = true) :
    redshift_array z_in z_out y yo? expo nm =
      .error (.invalidRedshift "Found invalid z_in") := by
  unfold redshift_array
  rw [h1]
  simp

lemma redshift_array_zout_err (z_in z_out : ZArr) (y : YArr) (yo? : Option YArr)
    (expo : Option ℤ) (nm : String) (h1 : anyLeNegOne z_in = false)
    (h2 : anyLeNegOne z_out = true) :
    redshift_array z_in z_out y yo? expo nm =
      .error (.invalidRedshift "Found invalid z_out") := by
  unfold redshift_array
  rw [h1, h2]
  simp

lemma apply_zin_err (z_in z_out : ZArr) (din dout : List (String × YArr))
    (etab : List (String × ℤ)) (al : String → Bool)
    (h1 : anyLeNegOne z_in = true) :
    apply_redshift_transform z_in z_out din dout etab al =
      .error (.invalidRedshift "Found invalid z_in") := by
  unfold apply_redshift_transform
  rw [h1]
  simp

lemma apply_zout_err (z_in z_out : ZArr) (din dout : List (String × YArr))
    (etab : List (String × ℤ)) (al : String → Bool)
    (h1 : anyLeNegOne z_in = false) (h2 : anyLeNegOne z_out = true) :
    apply_redshift_transform z_in z_out din dout etab al =
      .error (.invalidRedshift "Found invalid z_out") := by
  unfold apply_redshift_transform
  rw [h1, h2]
  simp

lemma apply_ok_eval (z_in z_out : ZArr) (din dout : List (String × YArr))
    (etab : List (String × ℤ)) (al : String → Bool)
    (h1 : anyLeNegOne z_in = false) (h2 : anyLeNegOne z_out = false) :
    apply_redshift_transform z_in z_out din dout etab al =
      .ok (dout.map fun p =>
        (p.1, transformCol z_in z_out din p.1 p.2 etab (al p.1))) := by
  unfold apply_redshift_transform
  rw [h1, h2]
  simp

/-- C5: `redshift_array` and `apply_redshift_transform` raise the
invalid-redshift error exactly when some element of `z_in` or `z_out`
is at most -1; `z_in` is checked first and `z_out` second, up front,
regardless of the `y` / data arguments, and on that error a supplied
output buffer or output mapping is left unchanged. -/
theorem claimC5_invalid_redshift_checks (z_in z_out : ZArr) (y : YArr)
    (yo? : Option YArr) (expo : Option ℤ) (nm : String)
    (data_in data_out : List (String × YArr)) (etab : List (String × ℤ))
    (al : String → Bool) :
    ((∃ m, errOf (redshift_array z_in z_out y yo? expo nm) =
        some (.invalidRedshift m)) ↔
      ((∃ i ∈ indexList z_in.shape, z_in.val i ≤ -1) ∨
        (∃ i ∈ indexList z_out.shape, z_out.val i ≤ -1))) ∧
    ((∃ m, errOf (apply_redshift_transform z_in z_out data_in data_out etab al) =
        some (.invalidRedshift m)) ↔
      ((∃ i ∈ indexList z_in.shape, z_in.val i ≤ -1) ∨
        (∃ i ∈ indexList z_out.shape, z_out.val i ≤ -1))) ∧
    (anyLeNegOne z_in = true →
      redshift_array z_in z_out y yo? expo nm =
          .error (.invalidRedshift "Found invalid z_in") ∧
        apply_redshift_transform z_in z_out data_in data_out etab al =
          .error (.invalidRedshift "Found invalid z_in")) ∧
    (anyLeNegOne z_in = false → anyLeNegOne z_out = true →
      redshift_array z_in z_out y yo? expo nm =
          .error (.invalidRedshift "Found invalid z_out") ∧
        apply_redshift_transform z_in z_out data_in data_out etab al =
          .error (.invalidRedshift "Found invalid z_out")) ∧
    ((anyLeNegOne z_in = true ∨ anyLeNegOne z_out = true) →
      (∀ yo, yo? = some yo →
        finalBuffer (redshift_array z_in z_out y yo? expo nm) yo = yo) ∧
      applyFinalData
        (apply_redshift_transform z_in z_out data_in data_out etab al)
        data_out = data_out) := by
  have herr : (anyLeNegOne z_in = true ∨ anyLeNegOne z_out = true) →
      (∃ m, redshift_array z_in z_out y yo? expo nm =
          .error (.invalidRedshift m)) ∧
      (∃ m, apply_redshift_transform z_in z_out data_in data_out etab al =
          .error (.invalidRedshift m)) := by
    intro h
    cases h1 : anyLeNegOne z_in with
    | true =>
      exact ⟨⟨_, redshift_array_zin_err z_in z_out y yo? expo nm h1⟩,
        ⟨_, apply_zin_err z_in z_out data_in data_out etab al h1⟩⟩
    | false =>
      have h2 : anyLeNegOne z_out = true := by
        rcases h with h | h
        · rw [h1] at h; exact absurd h (by simp)
        · exact h
      exact ⟨⟨_, redshift_array_zout_err z_in z_out y yo? expo nm h1 h2⟩,
        ⟨_, apply_zout_err z_in z_out data_in data_out etab al h1 h2⟩⟩
  have hcond : ((∃ i ∈ indexList z_in.shape, z_in.val i ≤ -1) ∨
      (∃ i ∈ indexList z_out.shape, z_out.val i ≤ -1)) ↔
      (anyLeNegOne z_in = true ∨ anyLeNegOne z_out = true) := by
    rw [anyLeNegOne_eq_true_iff, anyLeNegOne_eq_true_iff]
  refine ⟨?_, ?_, ?_, ?_, ?_⟩
  · rw [hcond]
    constructor
    · rintro ⟨m, hm⟩
      by_contra hno
      push_neg at hno
      obtain ⟨hn1, hn2⟩ := hno
      exact redshift_array_not_invalid z_in z_out y yo? expo nm m
        (by simpa using hn1) (by simpa using hn2) ((errOf_eq_some _ _).mp hm)
    · intro h
      obtain ⟨⟨m, hm⟩, _⟩ := herr h
      exact ⟨m, (errOf_eq_some _ _).mpr hm⟩
  · rw [hcond]
    constructor
    · rintro ⟨m, hm⟩
      by_contra hno
      push_neg at hno
      obtain ⟨hn1, hn2⟩ := hno
      have heq := (errOf_eq_some _ _).mp hm
      have hok := apply_ok_eval z_in z_out data_in data_out etab al
        (by simpa using hn1) (by simpa using hn2)
      rw [heq] at hok
      exact absurd hok (by simp)
    · intro h
      obtain ⟨_, ⟨m, hm⟩⟩ := herr h
      exact ⟨m, (errOf_eq_some _ _).mpr hm⟩
  · intro h1
    exact ⟨redshift_array_zin_err z_in z_out y yo? expo nm h1,
      apply_zin_err z_in z_out data_in data_out etab al h1⟩
  · intro h1 h2
    exact ⟨redshift_array_zout_err z_in z_out y yo? expo nm h1 h2,
      apply_zout_err z_in z_out data_in data_out etab al h1 h2⟩
  · intro h
    obtain ⟨⟨m1, hm1⟩, ⟨m2, hm2⟩⟩ := herr h
    refine ⟨?_, ?_⟩
    · intro yo hyo
      subst hyo
      rw [hm1]
      rfl
    · rw [hm2]
      rfl

lemma redshift_array_nonnum_err (z_in z_out : ZArr) (y : YArr)
    (yo? : Option YArr) (expo : Option ℤ) (nm : String)
    (h1 : anyLeNegOne z_in = false) (h2 : anyLeNegOne z_out = false)
    (h3 : y.dtype.isNumeric = false) :
    redshift_array z_in z_out y yo? expo nm = .error (.nonNumeric nm) := by
  unfold redshift_array
  rw [h1, h2, h3]
  simp

lemma redshift_array_nonfin_err (z_in z_out : ZArr) (y : YArr)
    (yo? : Option YArr) (expo : Option ℤ) (nm : String)
    (h1 : anyLeNegOne z_in = false) (h2 : anyLeNegOne z_out = false)
    (h3 : y.dtype.isNumeric = true) (h4 : allFinite y = false) :
    redshift_array z_in z_out y yo? expo nm = .error (.nonFinite nm) := by
  unfold redshift_array
  rw [h1, h2, h3, h4]
  simp

lemma redshift_array_bcast_err (z_in z_out : ZArr) (y : YArr)
    (yo? : Option YArr) (expo : Option ℤ) (nm : String)
    (h1 : anyLeNegOne z_in = false) (h2 : anyLeNegOne z_out = false)
    (h3 : y.dtype.isNumeric = true) (h4 : allFinite y = true)
    (h5 : bshape3 z_in.shape z_out.shape y.shape = none) :
    redshift_array z_in z_out y yo? expo nm =
      .error (.broadcastErr nm z_in.shape z_out.shape y.shape) := by
  unfold redshift_array
  rw [h1, h2, h3, h4, h5]
  simp

lemma redshift_array_shape_err (z_in z_out : ZArr) (y : YArr) (yo : YArr)
    (expo : Option ℤ) (nm : String) (s : List Nat)
    (h1 : anyLeNegOne z_in = false) (h2 : anyLeNegOne z_out = false)
    (h3 : y.dtype.isNumeric = true) (h4 : allFinite y = true)
    (h5 : bshape3 z_in.shape z_out.shape y.shape = some s)
    (hsh : yo.shape ≠ s) :
    redshift_array z_in z_out y (some yo) expo nm =
      .error (.wrongShape yo.shape nm) := by
  unfold redshift_array
  rw [h1, h2, h3, h4, h5]
  simp [hsh]

lemma redshift_array_dtype_err (z_in z_out : ZArr) (y : YArr) (yo : YArr)
    (expo : Option ℤ) (nm : String) (s : List Nat)
    (h1 : anyLeNegOne z_in = false) (h2 : anyLeNegOne z_out = false)
    (h3 : y.dtype.isNumeric = true) (h4 : allFinite y = true)
    (h5 : bshape3 z_in.shape z_out.shape y.shape = some s)
    (hsh : yo.shape = s) (hdt : yo.dtype ≠ y.dtype) :
    redshift_array z_in z_out y (some yo) expo nm =
      .error (.wrongDtype yo.dtype nm) := by
  unfold redshift_array
  rw [h1, h2, h3, h4, h5]
  simp [hsh, hdt]

/-- C9: with a caller-supplied output buffer, `redshift_array` succeeds
exactly when every validation passes (redshift bounds, numeric dtype,
finiteness, broadcastability, output shape, output dtype), and whenever
any validation fails the supplied buffer is left completely unchanged,
since every check precedes the single write. -/
theorem claimC9_validation_precedes_write (z_in z_out : ZArr) (y : YArr)
    (yo : YArr) (expo : Option ℤ) (nm : String) :
    (isOkE (redshift_array z_in z_out y (some yo) expo nm) = true ↔
      (anyLeNegOne z_in = false ∧ anyLeNegOne z_out = false ∧
        y.dtype.isNumeric = true ∧ allFinite y = true ∧
        ∃ s, bshape3 z_in.shape z_out.shape y.shape = some s ∧
          yo.shape = s ∧ yo.dtype = y.dtype)) ∧
    (isOkE (redshift_array z_in z_out y (some yo) expo nm) = false →
      finalBuffer (redshift_array z_in z_out y (some yo) expo nm) yo = yo) := by
  constructor
  · constructor
    · intro hok
      cases h1 : anyLeNegOne z_in with
      | true => rw [redshift_array_zin_err z_in z_out y (some yo) expo nm h1] at hok; simp [isOkE] at hok
      | false =>
      cases h2 : anyLeNegOne z_out with
      | true => rw [redshift_array_zout_err z_in z_out y (some yo) expo nm h1 h2] at hok; simp [isOkE] at hok
      | false =>
      cases h3 : y.dtype.isNumeric with
      | false => rw [redshift_array_nonnum_err z_in z_out y (some yo) expo nm h1 h2 h3] at hok; simp [isOkE] at hok
      | true =>
      cases h4 : allFinite y with
      | false => rw [redshift_array_nonfin_err z_in z_out y (some yo) expo nm h1 h2 h3 h4] at hok; simp [isOkE] at hok
      | true =>
      cases h5 : bshape3 z_in.shape z_out.shape y.shape with
      | none => rw [redshift_array_bcast_err z_in z_out y (some yo) expo nm h1 h2 h3 h4 h5] at hok; simp [isOkE] at hok
      | some s =>
      by_cases hsh : yo.shape = s
      · by_cases hdt : yo.dtype = y.dtype
        · exact ⟨rfl, rfl, rfl, rfl, s, rfl, hsh, hdt⟩
        · rw [redshift_array_dtype_err z_in z_out y yo expo nm s h1 h2 h3 h4 h5 hsh hdt] at hok
          simp [isOkE] at hok
      · rw [redshift_array_shape_err z_in z_out y yo expo nm s h1 h2 h3 h4 h5 hsh] at hok
        simp [isOkE] at hok
    · rintro ⟨h1, h2, h3, h4, s, h5, hsh, hdt⟩
      rw [redshift_array_ok_eval z_in z_out y (some yo) expo nm s h1 h2 h3 h4 h5
        (fun yo2 hyo2 => by cases hyo2; exact ⟨hsh, hdt⟩)]
      rfl
  · intro hfail
    cases hres : redshift_array z_in z_out y (some yo) expo nm with
    | error e => rfl
    | ok r => rw [hres] at hfail; simp [isOkE] at hfail




/-- C1 (amended: the elementwise equality `y_out = y_in * zfactor ** e`
holds exactly for floating-point `y_in`; for integer `y_in` the source
additionally converts `y_in` to float64 and truncates the product back
to the integer dtype on assignment, so the stated equality fails
there).  For floating-point `y_in` with all redshifts above -1, finite
values and mutually broadcastable shapes, the call succeeds, the result
has the broadcast shape of `(z_in, z_out, y_in)` and `y_in`'s dtype,
every element equals `y_in * ((1 + z_out) / (1 + z_in)) ** e` at the
broadcast-corresponding positions, with `e` the explicitly supplied
exponent if given, else the registry entry for `name` if present, else
0 — the same broadcasting path also when `e` is 0. -/
theorem claimC1_redshift_array_formula (z_in z_out : ZArr) (y : YArr)
    (yo? : Option YArr) (expo : Option ℤ) (nm : String) (s : List Nat)
    (hzin : ∀ i ∈ indexList z_in.shape, -1 < z_in.val i)
    (hzout : ∀ i ∈ indexList z_out.shape, -1 < z_out.val i)
    (hdt : y.dtype = .float64)
    (hfin : ∀ i ∈ indexList y.shape, y.finite i = true)
    (hbc : bshape3 z_in.shape z_out.shape y.shape = some s)
    (hout : ∀ yo, yo? = some yo → yo.shape = s ∧ yo.dtype = y.dtype) :
    (∀ e0, expo = some e0 → resolveExp expo nm = e0) ∧
    (expo = none → ∀ e0, exponent_for nm = some e0 → resolveExp expo nm = e0) ∧
    (expo = none → exponent_for nm = none → resolveExp expo nm = 0) ∧
    ∃ r, redshift_array z_in z_out y yo? expo nm = .ok r ∧
      r.shape = s ∧ r.dtype = y.dtype ∧
      ∀ i ∈ indexList s,
        r.val i = y.val (bproj y.shape i) *
          ((1 + z_out.val (bproj z_out.shape i)) /
            (1 + z_in.val (bproj z_in.shape i))) ^ resolveExp expo nm := by
  have h1 : anyLeNegOne z_in = false := (anyLeNegOne_eq_false_iff z_in).mpr hzin
  have h2 : anyLeNegOne z_out = false := (anyLeNegOne_eq_false_iff z_out).mpr hzout
  have h3 : y.dtype.isNumeric = true := by rw [hdt]; rfl
  have h4 : allFinite y = true := (allFinite_eq_true_iff y).mpr hfin
  refine ⟨?_, ?_, ?_, ?_⟩
  · rintro e0 rfl; rfl
  · rintro rfl e0 he; simp [resolveExp, he]
  · rintro rfl he; simp [resolveExp, he]
  refine ⟨_, redshift_array_ok_eval z_in z_out y yo? expo nm s h1 h2 h3 h4 hbc hout,
    rfl, rfl, ?_⟩
  intro i _
  simp [rhsValFn, hdt, castTo, toF64]

/-- C1 witness: `z_in = 0`, `z_out = 1`, the float column `[3, 4]`
under the registry name "wlen" (exponent +1) doubles. -/
theorem claimC1_redshift_array_formula_witness :
    ((∀ i ∈ indexList (scalarZ 0).shape, -1 < (scalarZ 0).val i) ∧
      (∀ i ∈ indexList (scalarZ 1).shape, -1 < (scalarZ 1).val i) ∧
      yTwoF.dtype = .float64 ∧
      (∀ i ∈ indexList yTwoF.shape, yTwoF.finite i = true) ∧
      bshape3 (scalarZ 0).shape (scalarZ 1).shape yTwoF.shape = some [2]) ∧
    (∃ r, redshift_array (scalarZ 0) (scalarZ 1) yTwoF none none "wlen" = .ok r ∧
      r.shape = [2] ∧ r.dtype = yTwoF.dtype ∧
      ∀ i ∈ indexList [2],
        r.val i = yTwoF.val (bproj yTwoF.shape i) *
          ((1 + (scalarZ 1).val (bproj (scalarZ 1).shape i)) /
            (1 + (scalarZ 0).val (bproj (scalarZ 0).shape i))) ^
              resolveExp none "wlen") :=
  ⟨⟨by norm_num [indexList, scalarZ], by norm_num [indexList, scalarZ], rfl,
      by decide, by decide⟩,
    (claimC1_redshift_array_formula (scalarZ 0) (scalarZ 1) yTwoF none none
      "wlen" [2] (by norm_num [indexList, scalarZ])
      (by norm_num [indexList, scalarZ]) rfl (by decide) (by decide)
      (fun yo h => by cases h)).2.2.2⟩

/-- C1 counterexample: for the int64 column `[3]` with explicit
exponent -1, `z_in = 0`, `z_out = 1`, the source returns 1 (the
float64 product 1.5 truncated back into the int64 buffer), not the
claimed `y_in * zfactor ** e = 3/2`. -/
theorem claimC1_exact_formula_cex :
    isOkE (redshift_array (scalarZ 0) (scalarZ 1) yInt3 none (some (-1)) "y") =
      true ∧
    okVal (redshift_array (scalarZ 0) (scalarZ 1) yInt3 none (some (-1)) "y")
      [0] = 1 ∧
    yInt3.val [0] *
      ((1 + (scalarZ 1).val (bproj (scalarZ 1).shape [0])) /
        (1 + (scalarZ 0).val (bproj (scalarZ 0).shape [0]))) ^ (-1 : ℤ) =
      3 / 2 ∧
    (1 : ℚ) ≠ 3 / 2 := by
  have hok := redshift_array_ok_eval (scalarZ 0) (scalarZ 1) yInt3 none
    (some (-1)) "y" [1] (by decide) (by decide) rfl (by decide) (by decide)
    (fun yo h => by cases h)
  refine ⟨by rw [hok]; rfl, ?_, ?_, by norm_num⟩
  · rw [hok]
    show rhsValFn (scalarZ 0) (scalarZ 1) yInt3 (resolveExp (some (-1)) "y") [0] = 1
    have h3 : roundF64Int 3 = 3 := by decide
    simp only [rhsValFn, resolveExp, yInt3, scalarZ, castTo, toF64, roundF64]
    norm_num [truncQ, bproj, h3]
  · norm_num [yInt3, scalarZ, bproj]

/-- C3 (amended: the exact identity under exponent 0 holds for
floating-point element types; for 64-bit integer inputs whose values
are not exactly representable in float64 the round trip through the
float computation alters the value).  For float64 `y_in`, valid
redshifts and broadcastable shapes, `redshift_array` with explicit
exponent 0 returns every broadcast-corresponding element of `y_in`
exactly. -/
theorem claimC3_zero_exponent_identity (z_in z_out : ZArr) (y : YArr)
    (yo? : Option YArr) (nm : String) (s : List Nat)
    (hzin : ∀ i ∈ indexList z_in.shape, -1 < z_in.val i)
    (hzout : ∀ i ∈ indexList z_out.shape, -1 < z_out.val i)
    (hdt : y.dtype = .float64)
    (hfin : ∀ i ∈ indexList y.shape, y.finite i = true)
    (hbc : bshape3 z_in.shape z_out.shape y.shape = some s)
    (hout : ∀ yo, yo? = some yo → yo.shape = s ∧ yo.dtype = y.dtype) :
    ∃ r, redshift_array z_in z_out y yo? (some 0) nm = .ok r ∧
      r.shape = s ∧
      ∀ i ∈ indexList s, r.val i = y.val (bproj y.shape i) := by
  have h1 : anyLeNegOne z_in = false := (anyLeNegOne_eq_false_iff z_in).mpr hzin
  have h2 : anyLeNegOne z_out = false := (anyLeNegOne_eq_false_iff z_out).mpr hzout
  have h3 : y.dtype.isNumeric = true := by rw [hdt]; rfl
  have h4 : allFinite y = true := (allFinite_eq_true_iff y).mpr hfin
  refine ⟨_, redshift_array_ok_eval z_in z_out y yo? (some 0) nm s h1 h2 h3 h4
    hbc hout, rfl, ?_⟩
  intro i _
  simp [rhsValFn, resolveExp, hdt, castTo, toF64]

/-- C3 witness: `z_in = 0`, `z_out = 1`, exponent 0 returns the float
column `[3, 4]` unchanged. -/
theorem claimC3_zero_exponent_identity_witness :
    ((∀ i ∈ indexList (scalarZ 0).shape, -1 < (scalarZ 0).val i) ∧
      (∀ i ∈ indexList (scalarZ 1).shape, -1 < (scalarZ 1).val i) ∧
      yTwoF.dtype = .float64 ∧
      (∀ i ∈ indexList yTwoF.shape, yTwoF.finite i = true) ∧
      bshape3 (scalarZ 0).shape (scalarZ 1).shape yTwoF.shape = some [2]) ∧
    (∃ r, redshift_array (scalarZ 0) (scalarZ 1) yTwoF none (some 0) "y" =
        .ok r ∧ r.shape = [2] ∧
      ∀ i ∈ indexList [2], r.val i = yTwoF.val (bproj yTwoF.shape i)) :=
  ⟨⟨by norm_num [indexList, scalarZ], by norm_num [indexList, scalarZ], rfl,
      by decide, by decide⟩,
    claimC3_zero_exponent_identity (scalarZ 0) (scalarZ 1) yTwoF none "y" [2]
      (by norm_num [indexList, scalarZ]) (by norm_num [indexList, scalarZ])
      rfl (by decide) (by decide) (fun yo h => by cases h)⟩

/-- C3 counterexample: the int64 value `2 ** 53 + 1` with exponent 0
and `z_in = z_out = 0` comes back as `2 ** 53`: the implicit int64 to
float64 conversion rounds it before the multiply, so the output is not
bit-identical to the input for every element type. -/
theorem claimC3_bit_identity_cex :
    isOkE (redshift_array (scalarZ 0) (scalarZ 0) yBigInt none (some 0) "y") =
      true ∧
    okVal (redshift_array (scalarZ 0) (scalarZ 0) yBigInt none (some 0) "y")
      [0] = 9007199254740992 ∧
    yBigInt.val [0] = 9007199254740993 ∧
    (9007199254740992 : ℚ) ≠ 9007199254740993 := by
  have hok := redshift_array_ok_eval (scalarZ 0) (scalarZ 0) yBigInt none
    (some 0) "y" [1] (by decide) (by decide) rfl (by decide) (by decide)
    (fun yo h => by cases h)
  have hround : roundF64Int 9007199254740993 = 9007199254740992 := by decide
  refine ⟨by rw [hok]; rfl, ?_, rfl, by norm_num⟩
  rw [hok]
  show rhsValFn (scalarZ 0) (scalarZ 0) yBigInt (resolveExp (some 0) "y") [0] =
    9007199254740992
  simp only [rhsValFn, resolveExp, yBigInt, scalarZ, castTo, toF64, roundF64]
  norm_num [truncQ, hround]


/-- C5 witness: `z_in = [-2]` triggers the up-front invalid-redshift
error in both functions and leaves the supplied buffer unchanged. -/
theorem claimC5_invalid_redshift_checks_witness :
    anyLeNegOne zBad = true ∧
    (redshift_array zBad (scalarZ 1) yTwoF (some yTwoF) none "y" =
        .error (.invalidRedshift "Found invalid z_in") ∧
      apply_redshift_transform zBad (scalarZ 1) [] [] []
          (fun _ => false) =
        .error (.invalidRedshift "Found invalid z_in")) ∧
    finalBuffer (redshift_array zBad (scalarZ 1) yTwoF (some yTwoF) none "y")
      yTwoF = yTwoF := by
  have hbad : anyLeNegOne zBad = true := by norm_num [anyLeNegOne, indexList, zBad]
  have h := claimC5_invalid_redshift_checks zBad (scalarZ 1) yTwoF (some yTwoF)
    none "y" [] [] [] (fun _ => false)
  exact ⟨hbad, h.2.2.1 hbad, (h.2.2.2.2 (Or.inl hbad)).1 yTwoF rfl⟩

/-- C9 witness: a failing call (invalid `z_in`) reports failure and the
supplied output buffer is returned unchanged. -/
theorem claimC9_validation_precedes_write_witness :
    isOkE (redshift_array zBad (scalarZ 1) yTwoF (some yTwoF) none "y") =
      false ∧
    finalBuffer (redshift_array zBad (scalarZ 1) yTwoF (some yTwoF) none "y")
      yTwoF = yTwoF := by
  have hbad : anyLeNegOne zBad = true := by norm_num [anyLeNegOne, indexList, zBad]
  have hfail : isOkE (redshift_array zBad (scalarZ 1) yTwoF (some yTwoF) none
      "y") = false := by
    rw [redshift_array_zin_err zBad (scalarZ 1) yTwoF (some yTwoF) none "y" hbad]
    rfl
  exact ⟨hfail,
    (claimC9_validation_precedes_write zBad (scalarZ 1) yTwoF yTwoF none "y").2
      hfail⟩

/-- C8: the orchestrator `redshift` writes debug output: a successful
call prints the three labelled values `arrays_out`, `data_in`,
`data_out` to standard output, contradicting the no-I/O contract. -/
theorem claimC8_debug_prints :
    isOkE (redshift [("flux", yTwoF)] (some (scalarZ 1)) none none none).res =
      true ∧
    (redshift [("flux", yTwoF)] (some (scalarZ 1)) none none none).stdout =
      ["arrays_out", "data_in", "data_out"] ∧
    (redshift [("flux", yTwoF)] (some (scalarZ 1)) none none none).stdout ≠
      [] := by
  have hcall := redshift_array_ok_eval (scalarZ 0) (scalarZ 1) yTwoF none none
    "flux" [2] (by decide) (by decide) rfl (by decide) (by decide)
    (fun yo h => by cases h)
  refine ⟨?_, ?_, ?_⟩ <;>
    simp [redshift, resolve_z, redshift_cols, hcall, isOkE]

lemma transformCol_eval (z_in z_out : ZArr) (din : List (String × YArr))
    (nm : String) (yo : YArr) (etab : List (String × ℤ)) (alp : Bool)
    (yi : YArr) (hlook : lookupCol din nm = some yi)
    (hsh : yi.shape = yo.shape) (hdti : yi.dtype = .float64)
    (hdto : yo.dtype = .float64)
    (halias : alp = true → ∀ i, yo.val i = yi.val i) :
    (transformCol z_in z_out din nm yo etab alp).shape = yo.shape ∧
    ∀ i ∈ indexList yo.shape,
      (transformCol z_in z_out din nm yo etab alp).val i =
        yi.val i * ((1 + z_out.val (bproj z_out.shape i)) /
          (1 + z_in.val (bproj z_in.shape i))) ^ lookupExp etab nm := by
  unfold transformCol
  rw [hlook]
  by_cases hn : lookupExp etab nm = 0
  · cases alp with
    | true =>
      constructor
      · simp [hn]
      · intro i hi
        simp [hn, halias rfl i]
    | false =>
      constructor
      · simp [hn]
      · intro i hi
        have hbp : bproj yi.shape i = i := by
          rw [hsh]; exact bproj_of_mem_indexList hi
        simp [hn, castTo, hdto, hbp]
  · constructor
    · simp [hn]
    · intro i hi
      have hbp : bproj yi.shape i = i := by
        rw [hsh]; exact bproj_of_mem_indexList hi
      simp [hn, castTo, toF64, hdto, hdti, hbp]




/-- C6 (amended: a zero-exponent or unlisted name ends up equal to
`data_in[name]` provided a base-aliased buffer is a content-identical
view of it; the source skips the copy whenever
`data_out[name].base is data_in[name]`, so a base-aliased but
element-permuting view is left as it was).  Under valid redshifts,
`apply_redshift_transform` succeeds, keeps the names and order of
`data_out`, and every float64 entry whose input column has its shape
and whose alias flag implies content equality ends up equal to
`data_in[name] * ((1 + z_out) / (1 + z_in)) ** n` elementwise, with `n`
the entry of `exponent` if present and 0 otherwise; the mutated mapping
is the return value. -/
theorem claimC6_apply_transform_values (z_in z_out : ZArr)
    (data_in data_out : List (String × YArr)) (etab : List (String × ℤ))
    (al : String → Bool)
    (h1 : anyLeNegOne z_in = false) (h2 : anyLeNegOne z_out = false) :
    ∃ out, apply_redshift_transform z_in z_out data_in data_out etab al =
        .ok out ∧
      out.map Prod.fst = data_out.map Prod.fst ∧
      List.Forall₂ (fun p q : String × YArr =>
        ∀ yi, lookupCol data_in p.1 = some yi →
          yi.shape = p.2.shape → yi.dtype = .float64 → p.2.dtype = .float64 →
          (al p.1 = true → ∀ i, p.2.val i = yi.val i) →
          q.2.shape = p.2.shape ∧
          ∀ i ∈ indexList p.2.shape,
            q.2.val i = yi.val i *
              ((1 + z_out.val (bproj z_out.shape i)) /
                (1 + z_in.val (bproj z_in.shape i))) ^ lookupExp etab p.1)
        data_out out := by
  refine ⟨_, apply_ok_eval z_in z_out data_in data_out etab al h1 h2, ?_, ?_⟩
  · simp [List.map_map, Function.comp]
  · rw [List.forall₂_map_right_iff, List.forall₂_same]
    intro p _ yi hlook hsh hdti hdto halias
    exact transformCol_eval z_in z_out data_in p.1 p.2 etab (al p.1) yi hlook
      hsh hdti hdto halias

/-- C6 witness: `z_in = 0`, `z_out = 1`, exponent table `flux = -1`,
non-aliased output buffer: the column `[3, 4]` is transformed. -/
theorem claimC6_apply_transform_values_witness :
    (anyLeNegOne (scalarZ 0) = false ∧ anyLeNegOne (scalarZ 1) = false) ∧
    (∃ out, apply_redshift_transform (scalarZ 0) (scalarZ 1)
        [("flux", yTwoF)] [("flux", yZeros2)] [("flux", -1)]
        (fun _ => false) = .ok out ∧
      out.map Prod.fst = [("flux", yZeros2)].map Prod.fst ∧
      List.Forall₂ (fun p q : String × YArr =>
        ∀ yi, lookupCol [("flux", yTwoF)] p.1 = some yi →
          yi.shape = p.2.shape → yi.dtype = .float64 → p.2.dtype = .float64 →
          ((fun (_ : String) => false) p.1 = true → ∀ i, p.2.val i = yi.val i) →
          q.2.shape = p.2.shape ∧
          ∀ i ∈ indexList p.2.shape,
            q.2.val i = yi.val i *
              ((1 + (scalarZ 1).val (bproj (scalarZ 1).shape i)) /
                (1 + (scalarZ 0).val (bproj (scalarZ 0).shape i))) ^
                  lookupExp [("flux", -1)] p.1)
        [("flux", yZeros2)] out) :=
  ⟨⟨by decide, by decide⟩,
    claimC6_apply_transform_values (scalarZ 0) (scalarZ 1) [("flux", yTwoF)]
      [("flux", yZeros2)] [("flux", -1)] (fun _ => false) (by decide)
      (by decide)⟩

/-- C6 counterexample: with `data_out["a"]` a base-aliased but reversed
view of `data_in["a"]` and exponent 0, the source skips the copy and
the entry does not end up equal to `data_in["a"]`: element 0 stays 7
while `data_in["a"]` has 5 there (and the claimed value
`data_in["a"][0] * zfactor ** 0` is 5). -/
theorem claimC6_alias_view_cex :
    isOkE (apply_redshift_transform (scalarZ 0) (scalarZ 0) [("a", yView1)]
      [("a", yView2)] [] (fun _ => true)) = true ∧
    (lookupCol (okCols (apply_redshift_transform (scalarZ 0) (scalarZ 0)
      [("a", yView1)] [("a", yView2)] [] (fun _ => true))) "a").map
        (fun a => a.val [0]) = some 7 ∧
    (lookupCol [("a", yView1)] "a").map (fun a => a.val [0]) = some 5 ∧
    lookupExp ([] : List (String × ℤ)) "a" = 0 ∧
    (7 : ℚ) ≠ 5 := by
  have hok := apply_ok_eval (scalarZ 0) (scalarZ 0) [("a", yView1)]
    [("a", yView2)] [] (fun _ => true) (by decide) (by decide)
  refine ⟨by rw [hok]; rfl, ?_, ?_, rfl, by norm_num⟩
  · rw [hok]
    simp [okCols, lookupCol, transformCol, lookupExp, yView2]
  · simp [lookupCol, yView1]

lemma isOkE_eq_true_iff {α : Type} (x : Except RErr α) :
    isOkE x = true ↔ ∃ r, x = .ok r := by
  cases x <;> simp [isOkE]

lemma lookupCol_cons (a : String) (w : YArr) (t : List (String × YArr))
    (m : String) :
    lookupCol ((a, w) :: t) m = if a = m then some w else lookupCol t m := by
  by_cases h : a = m
  · subst h; simp [lookupCol, List.find?]
  · have hb : (a == m) = false := by simp [h]
    simp [lookupCol, List.find?, hb, h]

lemma lookupCol_updateCol (l : List (String × YArr)) (n : String) (v : YArr)
    (m : String) :
    lookupCol (updateCol l n v) m = if m = n then some v else lookupCol l m := by
  induction l with
  | nil =>
    show lookupCol [(n, v)] m = _
    rw [lookupCol_cons]
    by_cases h : m = n
    · simp [h]
    · simp [h, Ne.symm h, lookupCol]
  | cons p t ih =>
    obtain ⟨a, w⟩ := p
    by_cases ha : a = n
    · subst ha
      rw [show updateCol ((a, w) :: t) a v = (a, v) :: t by simp [updateCol]]
      by_cases h : m = a
      · subst h; simp [lookupCol_cons]
      · simp [lookupCol_cons, Ne.symm h, h]
    · rw [show updateCol ((a, w) :: t) n v = (a, w) :: updateCol t n v by
        simp [updateCol, ha]]
      by_cases h : m = a
      · subst h
        have hmn : m ≠ n := fun hc => ha (hc ▸ rfl)
        simp [lookupCol_cons, hmn]
      · simp [lookupCol_cons, Ne.symm h, ih]

lemma lookupCol_eq_none_iff (l : List (String × YArr)) (n : String) :
    lookupCol l n = none ↔ n ∉ l.map Prod.fst := by
  simp only [lookupCol, Option.map_eq_none', List.find?_eq_none, List.mem_map]
  constructor
  · rintro h ⟨⟨a, w⟩, hmem, rfl⟩
    exact absurd (by simp) (h (a, w) hmem)
  · intro h p hp
    simp only [beq_iff_eq]
    intro hc
    exact h ⟨p, hp, hc⟩

lemma lookupCol_append_right_none (l1 l2 : List (String × YArr)) (n : String)
    (h : lookupCol l2 n = none) :
    lookupCol (l1 ++ l2) n = lookupCol l1 n := by
  induction l1 with
  | nil => simpa using h
  | cons p t ih =>
    obtain ⟨a, w⟩ := p
    by_cases ha : a = n <;>
      simp [List.cons_append, lookupCol_cons, ha, ih]

lemma redshift_cols_cons_out (zi zo : ZArr) (name : String) (y : YArr)
    (rest outs : List (String × YArr)) :
    redshift_cols zi zo true ((name, y) :: rest) outs =
      match lookupCol outs name with
      | none => (.error (.missingColumn name), outs)
      | some yo =>
        match redshift_array zi zo y (some yo) none name with
        | .error e => (.error e, outs)
        | .ok r => redshift_cols zi zo true rest (updateCol outs name r) := by
  simp [redshift_cols]

lemma redshift_cols_cons_noout (zi zo : ZArr) (name : String) (y : YArr)
    (rest outs : List (String × YArr)) :
    redshift_cols zi zo false ((name, y) :: rest) outs =
      match redshift_array zi zo y none none name with
      | .error e => (.error e, outs)
      | .ok r => redshift_cols zi zo false rest (updateCol outs name r) := by
  simp [redshift_cols]

lemma redshift_cols_frame (zi zo : ZArr) (hOut : Bool) :
    ∀ (cols outs : List (String × YArr)) (n : String),
      n ∉ cols.map Prod.fst →
      lookupCol (redshift_cols zi zo hOut cols outs).2 n = lookupCol outs n := by
  intro cols
  induction cols with
  | nil => intro outs n _; rfl
  | cons p rest ih =>
    intro outs n hn
    obtain ⟨name, y⟩ := p
    simp only [List.map_cons, List.mem_cons, not_or] at hn
    obtain ⟨hn1, hn2⟩ := hn
    cases hOut with
    | true =>
      rw [redshift_cols_cons_out]
      cases hlook : lookupCol outs name with
      | none => rfl
      | some yo =>
        cases hcall : redshift_array zi zo y (some yo) none name with
        | error e => simp only [hcall]
        | ok r =>
          simp only [hcall]
          rw [ih (updateCol outs name r) n hn2, lookupCol_updateCol]
          simp [hn1]
    | false =>
      rw [redshift_cols_cons_noout]
      cases hcall : redshift_array zi zo y none none name with
      | error e => simp only [hcall]
      | ok r =>
        simp only [hcall]
        rw [ih (updateCol outs name r) n hn2, lookupCol_updateCol]
        simp [hn1]

lemma redshift_cols_err_congr (zi zo : ZArr) (hOut : Bool) :
    ∀ (cols outs1 outs2 : List (String × YArr)),
      (∀ n ∈ cols.map Prod.fst, lookupCol outs1 n = lookupCol outs2 n) →
      errOf (redshift_cols zi zo hOut cols outs1).1 =
        errOf (redshift_cols zi zo hOut cols outs2).1 := by
  intro cols
  induction cols with
  | nil => intro outs1 outs2 _; rfl
  | cons p rest ih =>
    intro outs1 outs2 hagree
    obtain ⟨name, y⟩ := p
    have hhead : lookupCol outs1 name = lookupCol outs2 name :=
      hagree name (by simp)
    have htail : ∀ n ∈ rest.map Prod.fst,
        lookupCol outs1 n = lookupCol outs2 n :=
      fun n hn => hagree n (by simp [hn])
    have hupd : ∀ r, ∀ n ∈ rest.map Prod.fst,
        lookupCol (updateCol outs1 name r) n =
          lookupCol (updateCol outs2 name r) n := by
      intro r n hn
      rw [lookupCol_updateCol, lookupCol_updateCol]
      by_cases h : n = name
      · simp [h]
      · simp [h, htail n hn]
    cases hOut with
    | true =>
      rw [redshift_cols_cons_out, redshift_cols_cons_out, ← hhead]
      cases hlook : lookupCol outs1 name with
      | none => rfl
      | some yo =>
        cases hcall : redshift_array zi zo y (some yo) none name with
        | error e => simp only [hcall]
        | ok r => simp only [hcall]; exact ih _ _ (hupd r)
    | false =>
      rw [redshift_cols_cons_noout, redshift_cols_cons_noout]
      cases hcall : redshift_array zi zo y none none name with
      | error e => simp only [hcall]
      | ok r => simp only [hcall]; exact ih _ _ (hupd r)

lemma redshift_buf_eval (columns : List (String × YArr))
    (z z_in z_out : Option ZArr) (o : List (String × YArr)) :
    (redshift columns z z_in z_out (some o)).buf =
      match resolve_z z z_in z_out with
      | .error _ => o
      | .ok (zi, zo) => (redshift_cols zi zo true columns o).2 := by
  unfold redshift
  cases hres : resolve_z z z_in z_out with
  | error e => rfl
  | ok p =>
    obtain ⟨zi, zo⟩ := p
    cases hstep : (redshift_cols zi zo true columns o).1 with
    | error e => simp [hstep]
    | ok outs2 => simp [hstep]

/-- C10: extra columns of `data_out` whose names are not in the input
mapping never cause a failure (the call's error status is the same as
without them) and their contents are left untouched: only columns named
in the input mapping are written. -/
theorem claimC10_extra_output_columns (columns : List (String × YArr))
    (z z_in z_out : Option ZArr) (outs extra : List (String × YArr))
    (hdisj : ∀ n ∈ extra.map Prod.fst, n ∉ columns.map Prod.fst) :
    (∀ n, n ∉ columns.map Prod.fst →
      lookupCol (redshift columns z z_in z_out (some (outs ++ extra))).buf n =
        lookupCol (outs ++ extra) n) ∧
    errOf (redshift columns z z_in z_out (some (outs ++ extra))).res =
      errOf (redshift columns z z_in z_out (some outs)).res := by
  constructor
  · intro n hn
    rw [redshift_buf_eval]
    cases hres : resolve_z z z_in z_out with
    | error e => rfl
    | ok p =>
      obtain ⟨zi, zo⟩ := p
      exact redshift_cols_frame zi zo true columns (outs ++ extra) n hn
  · cases hres : resolve_z z z_in z_out with
    | error e =>
      unfold redshift
      rw [hres]
    | ok p =>
      obtain ⟨zi, zo⟩ := p
      rw [redshift_res_of_resolve_ok columns z z_in z_out
          (some (outs ++ extra)) zi zo hres,
        redshift_res_of_resolve_ok columns z z_in z_out (some outs) zi zo hres]
      simp only [Option.isSome_some, Option.getD_some]
      apply redshift_cols_err_congr
      intro n hn
      have hnex : lookupCol extra n = none :=
        (lookupCol_eq_none_iff extra n).mpr (fun hc => hdisj n hc hn)
      rw [lookupCol_append_right_none outs extra n hnex]

/-- C10 witness: an extra column "extra" in `data_out` is untouched and
does not change the call's outcome. -/
theorem claimC10_extra_output_columns_witness :
    (∀ n ∈ [("extra", yZeros2)].map Prod.fst,
      n ∉ [("flux", yTwoF)].map Prod.fst) ∧
    lookupCol (redshift [("flux", yTwoF)] (some (scalarZ 1)) none none
        (some ([("flux", yZeros2)] ++ [("extra", yZeros2)]))).buf "extra" =
      lookupCol ([("flux", yZeros2)] ++ [("extra", yZeros2)]) "extra" ∧
    errOf (redshift [("flux", yTwoF)] (some (scalarZ 1)) none none
        (some ([("flux", yZeros2)] ++ [("extra", yZeros2)]))).res =
      errOf (redshift [("flux", yTwoF)] (some (scalarZ 1)) none none
        (some [("flux", yZeros2)])).res :=
  ⟨by decide,
    (claimC10_extra_output_columns [("flux", yTwoF)] (some (scalarZ 1)) none
      none [("flux", yZeros2)] [("extra", yZeros2)] (by decide)).1 "extra"
      (by decide),
    (claimC10_extra_output_columns [("flux", yTwoF)] (some (scalarZ 1)) none
      none [("flux", yZeros2)] [("extra", yZeros2)] (by decide)).2⟩

lemma redshift_cols_missing (zi zo : ZArr) :
    ∀ (pre : List (String × YArr)) (m : String) (ym : YArr)
      (post outs : List (String × YArr)),
      (∀ p ∈ pre, ∃ yo, lookupCol outs p.1 = some yo ∧
        isOkE (redshift_array zi zo p.2 (some yo) none p.1) = true) →
      lookupCol outs m = none →
      (pre.map Prod.fst).Nodup →
      m ∉ pre.map Prod.fst →
      (redshift_cols zi zo true (pre ++ (m, ym) :: post) outs).1 =
          .error (.missingColumn m) ∧
      (∀ n, n ∉ pre.map Prod.fst →
        lookupCol (redshift_cols zi zo true (pre ++ (m, ym) :: post) outs).2
          n = lookupCol outs n) ∧
      (∀ p ∈ pre, ∃ yo r, lookupCol outs p.1 = some yo ∧
        redshift_array zi zo p.2 (some yo) none p.1 = .ok r ∧
        lookupCol (redshift_cols zi zo true (pre ++ (m, ym) :: post) outs).2
          p.1 = some r) := by
  intro pre
  induction pre with
  | nil =>
    intro m ym post outs _ hm _ _
    rw [List.nil_append, redshift_cols_cons_out, hm]
    exact ⟨rfl, fun n _ => rfl, fun p hp => absurd hp (List.not_mem_nil p)⟩
  | cons phead pre' ih =>
    intro m ym post outs hpre hm hnd hmp
    obtain ⟨a, ya⟩ := phead
    obtain ⟨yo, hlook, hok⟩ := hpre (a, ya) (by simp)
    obtain ⟨r, hr⟩ := (isOkE_eq_true_iff _).mp hok
    simp only [List.map_cons, List.mem_cons, not_or] at hmp
    obtain ⟨hma, hmp'⟩ := hmp
    rw [List.map_cons, List.nodup_cons] at hnd
    obtain ⟨hapre, hnd'⟩ := hnd
    rw [List.cons_append, redshift_cols_cons_out, hlook]
    simp only [hr]
    have hpre' : ∀ p ∈ pre', ∃ yo2,
        lookupCol (updateCol outs a r) p.1 = some yo2 ∧
        isOkE (redshift_array zi zo p.2 (some yo2) none p.1) = true := by
      intro p hp
      obtain ⟨yop, hlookp, hokp⟩ := hpre p (by simp [hp])
      have hpa : p.1 ≠ a := by
        intro hc
        exact hapre (hc ▸ List.mem_map.mpr ⟨p, hp, rfl⟩)
      refine ⟨yop, ?_, hokp⟩
      rw [lookupCol_updateCol]
      simp [hpa, hlookp]
    have hm' : lookupCol (updateCol outs a r) m = none := by
      rw [lookupCol_updateCol]
      simp [hma, hm]
    obtain ⟨ih1, ih2, ih3⟩ :=
      ih m ym post (updateCol outs a r) hpre' hm' hnd' hmp'
    refine ⟨ih1, ?_, ?_⟩
    · intro n hn
      simp only [List.map_cons, List.mem_cons, not_or] at hn
      obtain ⟨hna, hnp⟩ := hn
      rw [ih2 n hnp, lookupCol_updateCol]
      simp [hna]
    · intro p hp
      rcases List.mem_cons.mp hp with hph | hpt
      · subst hph
        refine ⟨yo, r, hlook, hr, ?_⟩
        rw [ih2 a hapre, lookupCol_updateCol]
        simp
      · obtain ⟨yop, rp, hlookp', hcallp, hfinp⟩ := ih3 p hpt
        have hpa : p.1 ≠ a := by
          intro hc
          exact hapre (hc ▸ List.mem_map.mpr ⟨p, hpt, rfl⟩)
        rw [lookupCol_updateCol] at hlookp'
        simp only [hpa, if_false] at hlookp'
        exact ⟨yop, rp, hlookp', hcallp, hfinp⟩



/-- C7 (amended: the missing-column check happens inside the
per-column loop, not during output preparation: `redshift` with a
`data_out` lacking an input column fails with `MissingOutputColumn`
when the loop reaches the first missing name; the columns preceding it
in input order have by then been transformed and written into
`data_out`'s buffers, while the buffers of all other names are
untouched). -/
theorem claimC7_missing_output_column (columns pre post : List (String × YArr))
    (m : String) (ym : YArr) (z z_in z_out : Option ZArr) (zi zo : ZArr)
    (outs : List (String × YArr))
    (hres : resolve_z z z_in z_out = .ok (zi, zo))
    (hcols : columns = pre ++ (m, ym) :: post)
    (hpre : ∀ p ∈ pre, ∃ yo, lookupCol outs p.1 = some yo ∧
      isOkE (redshift_array zi zo p.2 (some yo) none p.1) = true)
    (hm : lookupCol outs m = none)
    (hnd : (pre.map Prod.fst).Nodup)
    (hmp : m ∉ pre.map Prod.fst) :
    (redshift columns z z_in z_out (some outs)).res =
        .error (.missingColumn m) ∧
    (∀ n, n ∉ pre.map Prod.fst →
      lookupCol (redshift columns z z_in z_out (some outs)).buf n =
        lookupCol outs n) ∧
    (∀ p ∈ pre, ∃ yo r, lookupCol outs p.1 = some yo ∧
      redshift_array zi zo p.2 (some yo) none p.1 = .ok r ∧
      lookupCol (redshift columns z z_in z_out (some outs)).buf p.1 =
        some r) := by
  subst hcols
  obtain ⟨l1, l2, l3⟩ :=
    redshift_cols_missing zi zo pre m ym post outs hpre hm hnd hmp
  have hbuf : (redshift (pre ++ (m, ym) :: post) z z_in z_out
      (some outs)).buf =
      (redshift_cols zi zo true (pre ++ (m, ym) :: post) outs).2 := by
    rw [redshift_buf_eval, hres]
  have hresr := redshift_res_of_resolve_ok (pre ++ (m, ym) :: post) z z_in
    z_out (some outs) zi zo hres
  refine ⟨?_, ?_, ?_⟩
  · rw [hresr]
    exact l1
  · intro n hn
    rw [hbuf]
    exact l2 n hn
  · intro p hp
    obtain ⟨yo, r, h1, h2, h3⟩ := l3 p hp
    exact ⟨yo, r, h1, h2, by rw [hbuf]; exact h3⟩

/-- C7 witness: input columns `wlen`, `flux` with a `data_out` holding
only `wlen`: the call fails with the missing-column error for `flux`,
the `wlen` buffer holds the transformed column, other buffers are
untouched. -/
theorem claimC7_missing_output_column_witness :
    lookupCol [("wlen", yZeros1)] "flux" = none ∧
    ((redshift [("wlen", yW1), ("flux", yW1)] (some (scalarZ 1)) none none
        (some [("wlen", yZeros1)])).res = .error (.missingColumn "flux") ∧
      (∀ n, n ∉ [("wlen", yW1)].map Prod.fst →
        lookupCol (redshift [("wlen", yW1), ("flux", yW1)] (some (scalarZ 1))
          none none (some [("wlen", yZeros1)])).buf n =
          lookupCol [("wlen", yZeros1)] n) ∧
      (∀ p ∈ [("wlen", yW1)], ∃ yo r,
        lookupCol [("wlen", yZeros1)] p.1 = some yo ∧
        redshift_array (scalarZ 0) (scalarZ 1) p.2 (some yo) none p.1 =
          .ok r ∧
        lookupCol (redshift [("wlen", yW1), ("flux", yW1)] (some (scalarZ 1))
          none none (some [("wlen", yZeros1)])).buf p.1 = some r)) := by
  have hok := redshift_array_ok_eval (scalarZ 0) (scalarZ 1) yW1
    (some yZeros1) none "wlen" [1] (by decide) (by decide) rfl (by decide)
    (by decide) (fun yo h => by cases h; exact ⟨rfl, rfl⟩)
  refine ⟨rfl, claimC7_missing_output_column
    [("wlen", yW1), ("flux", yW1)] [("wlen", yW1)] [] "flux" yW1
    (some (scalarZ 1)) none none (scalarZ 0) (scalarZ 1) [("wlen", yZeros1)]
    rfl rfl ?_ rfl (by simp) (by simp)⟩
  intro p hp
  simp only [List.mem_singleton] at hp
  subst hp
  exact ⟨yZeros1, rfl, by rw [hok]; rfl⟩

/-- C7 counterexample: the claim says no column of `data_out` is
modified by the failing call, but with inputs `wlen`, `flux` and a
`data_out` holding only `wlen`, the failing call has already
overwritten the `wlen` buffer (0 became 6) before raising the
missing-column error for `flux`. -/
theorem claimC7_early_write_cex :
    (redshift [("wlen", yW1), ("flux", yW1)] (some (scalarZ 1)) none none
        (some [("wlen", yZeros1)])).res = .error (.missingColumn "flux") ∧
    (lookupCol (redshift [("wlen", yW1), ("flux", yW1)] (some (scalarZ 1))
        none none (some [("wlen", yZeros1)])).buf "wlen").map
      (fun a => a.val [0]) = some 6 ∧
    (lookupCol [("wlen", yZeros1)] "wlen").map (fun a => a.val [0]) =
      some 0 ∧
    (6 : ℚ) ≠ 0 := by
  have hok := redshift_array_ok_eval (scalarZ 0) (scalarZ 1) yW1
    (some yZeros1) none "wlen" [1] (by decide) (by decide) rfl (by decide)
    (by decide) (fun yo h => by cases h; exact ⟨rfl, rfl⟩)
  have hres : resolve_z (some (scalarZ 1)) none none =
      .ok (scalarZ 0, scalarZ 1) := rfl
  have hpre : ∀ p ∈ [("wlen", yW1)], ∃ yo,
      lookupCol [("wlen", yZeros1)] p.1 = some yo ∧
      isOkE (redshift_array (scalarZ 0) (scalarZ 1) p.2 (some yo) none p.1) =
        true := by
    intro p hp
    simp only [List.mem_singleton] at hp
    subst hp
    exact ⟨yZeros1, rfl, by rw [hok]; rfl⟩
  obtain ⟨l1, l2, l3⟩ := redshift_cols_missing (scalarZ 0) (scalarZ 1)
    [("wlen", yW1)] "flux" yW1 [] [("wlen", yZeros1)] hpre rfl (by simp)
    (by simp)
  have hbuf : (redshift [("wlen", yW1), ("flux", yW1)] (some (scalarZ 1))
      none none (some [("wlen", yZeros1)])).buf =
      (redshift_cols (scalarZ 0) (scalarZ 1) true
        ([("wlen", yW1)] ++ ("flux", yW1) :: []) [("wlen", yZeros1)]).2 := by
    rw [redshift_buf_eval, hres]
    rfl
  have hresr := redshift_res_of_resolve_ok
    [("wlen", yW1), ("flux", yW1)] (some (scalarZ 1)) none none
    (some [("wlen", yZeros1)]) (scalarZ 0) (scalarZ 1) hres
  refine ⟨by rw [hresr]; exact l1, ?_, rfl, by norm_num⟩
  obtain ⟨yo, r, hlook, hcall, hfin⟩ := l3 ("wlen", yW1) (by simp)
  have hyo : yo = yZeros1 := by
    have : some yo = some yZeros1 := by rw [← hlook]; rfl
    exact (Option.some.injEq _ _).mp this
  subst hyo
  rw [hok] at hcall
  have hr : r = ⟨[1], yW1.dtype,
      rhsValFn (scalarZ 0) (scalarZ 1) yW1 (resolveExp none "wlen"),
      fun _ => true⟩ := by
    exact ((Except.ok.injEq _ _).mp hcall).symm
  rw [hbuf, hfin, hr]
  simp only [Option.map_some']
  have : rhsValFn (scalarZ 0) (scalarZ 1) yW1 (resolveExp none "wlen") [0] =
      6 := by
    have he : resolveExp none "wlen" = 1 := by decide
    simp only [rhsValFn, he, yW1, scalarZ, castTo, toF64]
    norm_num
  rw [this]
